import Mathlib

/-
Verification of the openblocks Comp composition / action-dispatch engine
against its natural-language specification.

Shallow embedding of:
  * `MongoQuery` (tagged-union composite over Mongo command types),
  * `InputsComp` (dynamic map composite of `JSONValueControl` children),
  * `LibraryQuery` (fixed composite owning an `InputsComp` child),
  * the generic persistent reduce engine (value nodes and child routing).

Child values of `JSONValueControl` and of the Params*Control family are the
code-text strings the controls store, so child state is modelled as `String`.
-/

namespace Openblocks

/-- Lookup in an association list by string key, first match wins, mirroring
JS object property access. -/
def alookup {α : Type} : List (String × α) → String → Option α
  | [], _ => none
  | (k, v) :: rest, key => if k = key then some v else alookup rest key

/-- Keys of a JS object built by repeated assignment: first-occurrence order,
later duplicates collapse into the existing slot. -/
def dedupAux (seen : List String) : List String → List String
  | [] => []
  | n :: rest => if n ∈ seen then dedupAux seen rest else n :: dedupAux (n :: seen) rest

/-- First-occurrence deduplication of a key list. -/
def firstDedup (l : List String) : List String := dedupAux [] l

/-! ## Dynamic map composite: `InputsComp` (libraryQuery.tsx) -/

/-- A declared library-query input: `{ name, description }`. -/
structure InputItem where
  name : String
  description : String
deriving DecidableEq, Repr

/-- Modelled from the spec: the default value a `JSONValueControl` substitutes
when constructed with an absent input value (the control itself lives in
openblocks-core, not under src/); a code control starts from empty code text. -/
def jsonControlDefault : String := ""

/-- State of `InputsComp`: the construction-time `params.value` captured by the
constructor (`this.params = params`), the current children map (each child a
`JSONValueControl` holding a string), and the `inputs` list set by `setInputs`. -/
structure InputsComp where
  paramsValue : List (String × String)
  children : List (String × String)
  inputs : List InputItem
deriving DecidableEq, Repr

/-- Construction (`parseChildrenFromValue`): one `JSONValueControl` child per
entry of `params.value`; the `inputs` instance field initializes to `[]`. -/
def InputsComp.construct (v : List (String × String)) : InputsComp :=
  ⟨v, v, []⟩

/-- Serialization of the multi comp: each child serializes to its value. -/
def InputsComp.toJsonValue (s : InputsComp) : List (String × String) :=
  s.children

/-- Lookup in the spread `{ ...this.params.value, ...this.toJsonValue() }`:
entries of `toJsonValue()` (the live children) override `params.value`. -/
def InputsComp.mergedLookup (s : InputsComp) (n : String) : Option String :=
  (alookup s.toJsonValue n).orElse (fun _ => alookup s.paramsValue n)

/-- `InputsComp.setInputs`: builds the `childrenMap` keyed by the input names
(duplicates collapsing as in a JS object), then rebuilds children via
`parseChildrenFromValueAndChildrenMap` — modelled from the spec as the pure
"parse value into children" step that initializes each key from the merged
value and substitutes the declared default when the key is absent — and
returns a copy of the comp with the new `children` and `inputs` fields. -/
def InputsComp.setInputs (s : InputsComp) (items : List InputItem) : InputsComp :=
  { s with
    children :=
      (firstDedup (items.map InputItem.name)).map
        (fun n => (n, (s.mergedLookup n).getD jsonControlDefault)),
    inputs := items }

/-- Modelled from the spec: the dispatch engine routing a change-value action
to the child at key `k` (wrapChildAction handling of openblocks-core, not
under src/); only that child's stored value is replaced. -/
def InputsComp.editChild (s : InputsComp) (k : String) (v : String) : InputsComp :=
  { s with children := s.children.map (fun p => if p.1 = k then (p.1, v) else p) }

/-- An input editor rendered by `propertyView({label, tooltip, ...})`. -/
structure EditorView where
  label : String
  tooltip : String
deriving DecidableEq, Repr

/-- Result of `InputsComp.getPropertyView`: either the no-input placeholder
(`queryLibrary.noInput` wrapped in `QueryConfigWrapper`) or the list of
per-input render results, `none` standing for the rendered `null`. -/
inductive InputsPropView where
  | noInputPlaceholder
  | editors (es : List (Option EditorView))
deriving DecidableEq, Repr

/-- Render of one entry of `this.inputs`: `null` when `this.children[name]` is
absent, otherwise the child's editor labelled by the input name with its
description as tooltip. -/
def renderInputItem (s : InputsComp) (i : InputItem) : Option EditorView :=
  (alookup s.children i.name).map (fun _ => ⟨i.name, i.description⟩)

/-- `InputsComp.getPropertyView`: placeholder when `this.inputs.length === 0`,
otherwise map the render over `this.inputs`. -/
def InputsComp.getPropertyView (s : InputsComp) : InputsPropView :=
  if s.inputs.length = 0 then .noInputPlaceholder
  else .editors (s.inputs.map (renderInputItem s))

/-! ## Fixed composite: `LibraryQuery` (libraryQuery.tsx) -/

/-- The serialized `DataType` of `LibraryQuery`. The `error` child is a
`stateComp` — modelled from the spec as transient UI-only state excluded from
the persisted form — so it has no field here. -/
structure LQData where
  libraryQueryId : String
  libraryQueryRecordId : String
  inputs : List (String × String)
deriving DecidableEq, Repr

/-- State of `LibraryQuery`: the four children (`libraryQueryId`,
`libraryQueryRecordId`, `inputs`, `error`), the `isReady` flag and the
construction-time `params.value` captured by the constructor. -/
structure LibraryQuery where
  libraryQueryId : String
  libraryQueryRecordId : String
  inputs : InputsComp
  errorState : String
  isReady : Bool
  value : LQData
deriving DecidableEq, Repr

/-- Construction of `LibraryQuery` from a full `DataType` value: children are
parsed from the value, `error` starts at the `stateComp` default `""`,
`isReady` at `false`, and `this.value = params.value`. -/
def LibraryQuery.construct (v : LQData) : LibraryQuery :=
  ⟨v.libraryQueryId, v.libraryQueryRecordId, InputsComp.construct v.inputs, "", false, v⟩

/-- `LibraryQuery.toJsonValue`: the super serialization (children maps, the
`stateComp` error excluded) when ready; before the inputs document has
arrived, the `inputs` entry is overridden with `this.value?.inputs`. -/
def LibraryQuery.toJsonValue (lq : LibraryQuery) : LQData :=
  if lq.isReady then
    ⟨lq.libraryQueryId, lq.libraryQueryRecordId, lq.inputs.toJsonValue⟩
  else
    ⟨lq.libraryQueryId, lq.libraryQueryRecordId, lq.value.inputs⟩

/-- Actions reaching `LibraryQuery.reduce`: the custom `queryLibraryUpdate`
action carrying `action.value?.dsl?.["inputs"]`, and the child-routed
change-value actions used by the property view (`changeChildAction` on the id
children, `dispatchChangeValueAction` on the `error` child). -/
inductive LQAct where
  | queryLibraryUpdate (dsl : Option (List InputItem))
  | errorChange (msg : String)
  | changeLibraryQueryId (v : String)
  | changeRecordId (v : String)
deriving DecidableEq, Repr

/-- `LibraryQuery.reduce`: on `queryLibraryUpdate` it calls
`children.inputs.setInputs(action.value?.dsl?.["inputs"] ?? [])`, splices the
new inputs child into a copy of the children map and sets `isReady`;
`setFieldsNoTypeCheck` is modelled from the spec as a functional field update
returning a new node. Other actions route to the addressed child as in the
super reduce. -/
def LibraryQuery.reduce (lq : LibraryQuery) (a : LQAct) : LibraryQuery :=
  match a with
  | .queryLibraryUpdate dsl =>
      { lq with inputs := lq.inputs.setInputs (dsl.getD []), isReady := true }
  | .errorChange msg => { lq with errorState := msg }
  | .changeLibraryQueryId v => { lq with libraryQueryId := v }
  | .changeRecordId v => { lq with libraryQueryRecordId := v }

/-- Result of `getInputsView` in the `LibraryQuery` property view. -/
inductive LQInputsView where
  | nullView
  | errorText (msg : String)
  | loadingSpinner
  | inputsProps (v : InputsPropView)
deriving DecidableEq, Repr

/-- `getInputsView`: `null` when `queryId` is falsy; with no fetched `info`,
the inline error text when the error child is non-empty, else the spinner;
with `info`, the inputs property view. -/
def LibraryQuery.getInputsView (lq : LibraryQuery) (info : Option (List InputItem)) :
    LQInputsView :=
  if lq.libraryQueryId = "" then .nullView
  else
    match info with
    | none => if lq.errorState = "" then .loadingSpinner else .errorText lq.errorState
    | some _ => .inputsProps lq.inputs.getPropertyView

/-! ## Tagged-union composite: `MongoQuery` (mongoQuery.tsx, src/unnamed/part_000) -/

/-- The discriminator values of `CommandOptions` / the keys of `CommandMap`. -/
inductive MongoCommand where
  | FIND | INSERT | UPDATE | DELETE | COUNT | DISTINCT | AGGREGATE | RAW
deriving DecidableEq, Repr

/-- The string form of a discriminator, as it appears in actions and JSON. -/
def MongoCommand.toStr : MongoCommand → String
  | .FIND => "FIND"
  | .INSERT => "INSERT"
  | .UPDATE => "UPDATE"
  | .DELETE => "DELETE"
  | .COUNT => "COUNT"
  | .DISTINCT => "DISTINCT"
  | .AGGREGATE => "AGGREGATE"
  | .RAW => "RAW"

/-- The control backing one payload field of a command schema. -/
inductive ParamControl where
  | paramsJson
  | paramsPositiveNumber
  | paramsString
  | dropdownLimit
deriving DecidableEq, Repr

/-- Modelled from the spec: the default value each control constructs from an
absent input (the control classes live in openblocks-core / comps/controls,
not under src/): code controls start from empty code text, the
`dropdownControl(LimitOptions, "SINGLE")` starts at `"SINGLE"`. -/
def ParamControl.defaultValue : ParamControl → String
  | .dropdownLimit => "SINGLE"
  | _ => ""

/-- `CommandMap`: discriminator value to field schema, fields in declaration
order with their backing controls. -/
def commandSchema : MongoCommand → List (String × ParamControl)
  | .FIND =>
      [("query", .paramsJson), ("projection", .paramsJson),
       ("limit", .paramsPositiveNumber), ("skip", .paramsPositiveNumber),
       ("sort", .paramsJson)]
  | .INSERT => [("documents", .paramsJson)]
  | .UPDATE => [("query", .paramsJson), ("update", .paramsJson), ("limit", .dropdownLimit)]
  | .DELETE => [("query", .paramsJson), ("limit", .dropdownLimit)]
  | .COUNT => [("query", .paramsJson)]
  | .DISTINCT => [("query", .paramsJson), ("key", .paramsString)]
  | .AGGREGATE => [("arrayPipelines", .paramsJson), ("limit", .paramsPositiveNumber)]
  | .RAW => [("command", .paramsJson)]

/-- State of `MongoQuery` (built by `withTypeAndChildren(CommandMap, "FIND",
{collection})`): the stored discriminator, the payload child's field values,
and the always-present `collection` sibling field. -/
structure MongoQueryComp where
  compType : MongoCommand
  comp : List (String × String)
  collection : String
deriving DecidableEq, Repr

/-- Payload construction for a discriminator from an input value: each schema
field takes the input's entry or, when absent, the control's default. -/
def buildCommandPayload (t : MongoCommand) (input : List (String × String)) :
    List (String × String) :=
  (commandSchema t).map (fun p => (p.1, (alookup input p.1).getD p.2.defaultValue))

/-- Actions reaching the `MongoQuery` node: the change-discriminator action
dispatched by the commands dropdown as `changeValueAction({compType: value,
comp: {}})`, and actions routed to the payload child or the collection field. -/
inductive MongoAct where
  | changeDiscriminator (t : MongoCommand)
  | wrapComp (field : String) (v : String)
  | wrapCollection (v : String)
deriving DecidableEq, Repr

/-- Modelled from the spec: the `withTypeAndChildren` reduce (openblocks
generators, not under src/): the change-discriminator action atomically
updates the stored discriminator and reconstructs the payload child from the
schema registered for the new discriminator and an empty input value; other
actions route to the payload or to the extra field by key. -/
def mongoReduce (s : MongoQueryComp) (a : MongoAct) : MongoQueryComp :=
  match a with
  | .changeDiscriminator t =>
      { compType := t, comp := buildCommandPayload t [], collection := s.collection }
  | .wrapComp f v =>
      { s with comp := s.comp.map (fun p => if p.1 = f then (p.1, v) else p) }
  | .wrapCollection v => { s with collection := v }

/-- A JS value sitting in an action's payload object: a string, or anything
that is not a string (lodash `includes` with `===` can only match strings). -/
inductive JsField where
  | strVal (s : String)
  | otherVal
deriving DecidableEq, Repr

/-- The shape `MongoQuery.isWrite` inspects on a `CompAction`: the optional
`value` property, itself an object with string keys. -/
structure JsAction where
  value : Option (List (String × JsField))
deriving DecidableEq, Repr

/-- `MongoQuery.isWrite`: `"value" in action && includes(["INSERT", "UPDATE",
"DELETE", "RAW"], action.value["compType"])`. -/
def isWrite (self : MongoQueryComp) (a : JsAction) : Bool :=
  match a.value with
  | none => false
  | some obj =>
      match alookup obj "compType" with
      | some (.strVal s) => (["INSERT", "UPDATE", "DELETE", "RAW"] : List String).contains s
      | _ => false

/-- The JS action object `changeValueAction({compType: value, comp: {}})` as
`isWrite` sees it. -/
def changeTypeJsAction (t : MongoCommand) : JsAction :=
  ⟨some [("compType", .strVal t.toStr), ("comp", .otherVal)]⟩

/-! ## Generic persistent reduce engine (openblocks-core, modelled from spec) -/

/-- Modelled from the spec: a terminal value node of the persistent tree. The
`ref` field models JS object identity: construction sites hand out fresh
refs, so two nodes are one JS object exactly when they are equal here. -/
structure RNode where
  ref : Nat
  val : String
deriving DecidableEq, Repr

/-- Modelled from the spec: the action kinds of the dispatch protocol that a
value node can receive: change-value, route-to-child, or a custom kind. -/
inductive CoreAct where
  | changeValue (v : String)
  | wrapChild (k : String) (a : CoreAct)
  | custom (tag : String)
deriving DecidableEq, Repr

/-- Modelled from the spec: value-node reduce: a change-value action returns a
new node (fresh ref) holding the new value; every other action is a deliberate
no-op returning the receiver itself. -/
def RNode.reduce (n : RNode) (a : CoreAct) (fresh : Nat) : RNode :=
  match a with
  | .changeValue v => ⟨fresh, v⟩
  | _ => n

/-- Modelled from the spec: a composite node with named value-node children. -/
structure MultiNode where
  ref : Nat
  children : List (String × RNode)
deriving DecidableEq, Repr

/-- Modelled from the spec: routing an action to the named child: the child's
reduce result is spliced into a copy of the children map, every other child
entry carried over unchanged; routing to an absent key is a routing error
(`none`). -/
def MultiNode.reduceChild (m : MultiNode) (k : String) (ca : CoreAct) (fresh : Nat) :
    Option MultiNode :=
  if (alookup m.children k).isSome then
    some ⟨fresh, m.children.map (fun p => if p.1 = k then (p.1, p.2.reduce ca (fresh + 1)) else p)⟩
  else none

/-! ## Helper lemmas -/

/-- Lookup after an update-at-key map: every key other than the updated one
resolves to its old entry. -/
theorem alookup_map_update {α : Type} (l : List (String × α)) (k j : String) (g : α → α)
    (hne : j ≠ k) :
    alookup (l.map (fun p => if p.1 = k then (p.1, g p.2) else p)) j = alookup l j := by
  induction l with
  | nil => rfl
  | cons p rest ih =>
    obtain ⟨pk, pv⟩ := p
    have hhead : ((pk, pv) :: rest).map (fun p => if p.1 = k then (p.1, g p.2) else p)
        = (if pk = k then (pk, g pv) else (pk, pv))
            :: rest.map (fun p => if p.1 = k then (p.1, g p.2) else p) := rfl
    by_cases hpk : pk = k
    · subst hpk
      have hj : ¬ pk = j := fun hh => hne hh.symm
      rw [hhead, if_pos rfl]
      show (if pk = j then some (g pv) else _) = if pk = j then some pv else alookup rest j
      rw [if_neg hj, if_neg hj, ih]
    · rw [hhead, if_neg hpk]
      show (if pk = j then some pv else _) = if pk = j then some pv else alookup rest j
      by_cases hj : pk = j
      · rw [if_pos hj, if_pos hj]
      · rw [if_neg hj, if_neg hj, ih]

/-- Deduplication of a list with no duplicates and no overlap with the seen
accumulator is the identity. -/
theorem dedupAux_eq_self (l : List String) :
    ∀ seen, l.Nodup → (∀ x ∈ l, x ∉ seen) → dedupAux seen l = l := by
  induction l with
  | nil => intro seen _ _; rfl
  | cons n rest ih =>
    intro seen hnd hdis
    have hn : n ∉ seen := hdis n (by simp)
    have hcons := List.nodup_cons.mp hnd
    simp only [dedupAux, if_neg hn]
    congr 1
    refine ih (n :: seen) hcons.2 ?_
    intro x hx
    simp only [List.mem_cons]
    rintro (hxe | hxs)
    · exact hcons.1 (hxe ▸ hx)
    · exact hdis x (List.mem_cons_of_mem _ hx) hxs

/-- First-occurrence deduplication of a duplicate-free list is the identity. -/
theorem firstDedup_eq_self (l : List String) (h : l.Nodup) : firstDedup l = l :=
  dedupAux_eq_self l [] h (by simp)

/-- On a freshly constructed `InputsComp`, the spread-merged lookup is the
lookup in the construction value. -/
theorem mergedLookup_construct (v : List (String × String)) (n : String) :
    (InputsComp.construct v).mergedLookup n = alookup v n := by
  cases h : alookup v n <;>
    simp [InputsComp.mergedLookup, InputsComp.construct, InputsComp.toJsonValue, h,
      Option.orElse]

/-- Rebuilding an association list with duplicate-free keys from its own
lookups reproduces it. -/
theorem alookup_rebuild {α : Type} (l : List (String × α)) (d : α)
    (h : (l.map Prod.fst).Nodup) :
    (l.map Prod.fst).map (fun n => (n, (alookup l n).getD d)) = l := by
  induction l with
  | nil => rfl
  | cons p rest ih =>
    obtain ⟨pk, pv⟩ := p
    simp only [List.map_cons] at h ⊢
    have hcons := List.nodup_cons.mp h
    congr 1
    · simp [alookup]
    · rw [List.map_congr_left (g := fun n => (n, (alookup rest n).getD d)) ?_]
      · exact ih hcons.2
      · intro n hn
        have hne : ¬ pk = n := fun hh => hcons.1 (hh ▸ hn)
        simp [alookup, hne]

/-! ## Claim theorems -/

/-- Claim C1: for a `MongoQuery` tagged-union node with any discriminator and
arbitrarily populated payload fields, the change-discriminator action
(`changeValueAction({compType: B, comp: {}})`) updates the stored
discriminator to `B` and rebuilds the payload from the schema registered for
`B` with an empty input value, so every payload field equals the control
default of `B`'s schema, regardless of the prior payload; the `collection`
sibling is carried over. -/
theorem c1_discriminator_swap_clears_payload (s : MongoQueryComp) (t : MongoCommand) :
    (mongoReduce s (.changeDiscriminator t)).compType = t ∧
    (mongoReduce s (.changeDiscriminator t)).comp
      = (commandSchema t).map (fun p => (p.1, p.2.defaultValue)) ∧
    (mongoReduce s (.changeDiscriminator t)).collection = s.collection := by
  refine ⟨rfl, ?_, rfl⟩
  simp [mongoReduce, buildCommandPayload, alookup]

/-- Claim C7: `MongoQuery.isWrite` classifies the change-discriminator action
of every discriminator in the `CommandMap` table: it returns `true` exactly
for INSERT, UPDATE, DELETE and RAW, and `false` for FIND, COUNT, DISTINCT and
AGGREGATE, whatever the node's own state. -/
theorem c7_isWrite_partitions_discriminators (s : MongoQueryComp) (t : MongoCommand) :
    isWrite s (changeTypeJsAction t)
      = (t == MongoCommand.INSERT || t == MongoCommand.UPDATE ||
         t == MongoCommand.DELETE || t == MongoCommand.RAW) := by
  cases t <;> rfl

/-- Claim C9: `MongoQuery.isWrite` is a function of the action alone: its
result never depends on the receiving node, an action without a `value`
property yields `false`, and so does a `value` whose `compType` is absent,
not a string, or a string outside INSERT/UPDATE/DELETE/RAW — even when the
node's own discriminator is a write command. -/
theorem c9_isWrite_function_of_action_alone (s1 s2 : MongoQueryComp) (a : JsAction) :
    isWrite s1 a = isWrite s2 a ∧
    (a.value = none → isWrite s1 a = false) ∧
    (∀ obj, a.value = some obj → alookup obj "compType" = none → isWrite s1 a = false) ∧
    (∀ obj, a.value = some obj → alookup obj "compType" = some JsField.otherVal →
      isWrite s1 a = false) ∧
    (∀ obj str, a.value = some obj → alookup obj "compType" = some (JsField.strVal str) →
      (["INSERT", "UPDATE", "DELETE", "RAW"] : List String).contains str = false →
      isWrite s1 a = false) := by
  obtain ⟨v⟩ := a
  refine ⟨rfl, ?_, ?_, ?_, ?_⟩
  · rintro rfl; rfl
  · rintro obj rfl hl; simp [isWrite, hl]
  · rintro obj rfl hl; simp [isWrite, hl]
  · rintro obj str rfl hl hc
    show (match alookup obj "compType" with
          | some (JsField.strVal s) =>
              (["INSERT", "UPDATE", "DELETE", "RAW"] : List String).contains s
          | _ => false) = false
    rw [hl]
    exact hc

/-- Witness for C9 at a node whose own discriminator is a write command and an
action with no `value` property. -/
theorem c9_witness : isWrite ⟨MongoCommand.INSERT, [], "users"⟩ ⟨none⟩ = false :=
  (c9_isWrite_function_of_action_alone ⟨MongoCommand.INSERT, [], "users"⟩
    ⟨MongoCommand.FIND, [], "users"⟩ ⟨none⟩).2.1 rfl

/-- Claim C8: an `InputsComp` whose inputs key list is empty renders the
explicit no-input placeholder, not nothing — even when stale children are
still present. -/
theorem c8_empty_inputs_placeholder (s : InputsComp) (h : s.inputs = []) :
    s.getPropertyView = InputsPropView.noInputPlaceholder := by
  simp [InputsComp.getPropertyView, h]

/-- Witness for C8 on a freshly constructed comp with a nonempty child map but
empty inputs list. -/
theorem c8_witness :
    (InputsComp.construct [("a", "1")]).getPropertyView
      = InputsPropView.noInputPlaceholder :=
  c8_empty_inputs_placeholder (InputsComp.construct [("a", "1")]) rfl

/-- Claim C10: `InputsComp.getPropertyView` is total under disagreement
between the declared inputs list and the children map: every declared input
whose name has no child renders as `null` (`none`), with no error, while
names with a child render their editor. -/
theorem c10_property_view_total_on_missing_child (s : InputsComp) (i : InputItem)
    (hne : s.inputs ≠ []) :
    s.getPropertyView = InputsPropView.editors (s.inputs.map (renderInputItem s)) ∧
    (alookup s.children i.name = none → renderInputItem s i = none) ∧
    (∀ v, alookup s.children i.name = some v →
      renderInputItem s i = some ⟨i.name, i.description⟩) := by
  refine ⟨?_, ?_, ?_⟩
  · simp [InputsComp.getPropertyView, List.length_eq_zero, hne]
  · intro h; simp [renderInputItem, h]
  · intro v h; simp [renderInputItem, h]

/-- Witness for C10: a declared input `zzz` with no matching child renders as
`null`. -/
theorem c10_witness :
    renderInputItem ⟨[], [("a", "1")], [⟨"zzz", "d"⟩]⟩ ⟨"zzz", "d"⟩ = none :=
  (c10_property_view_total_on_missing_child ⟨[], [("a", "1")], [⟨"zzz", "d"⟩]⟩
    ⟨"zzz", "d"⟩ (by decide)).2.1 (by decide)

/-- Claim C3: reduce is persistent: in the modelled engine a dispatch returns
a value and the receiving node is untouched; an unrecognized action is a
no-op signalled by returning the receiver itself (pointer-equal result),
while a recognized change-value action returns a node holding the new value
under a fresh reference, hence a genuinely new node. -/
theorem c3_reduce_persistent_noop_pointer_equal (n : RNode) (a : CoreAct) (fresh : Nat) :
    ((∀ v, a ≠ CoreAct.changeValue v) → n.reduce a fresh = n) ∧
    (∀ v, a = CoreAct.changeValue v →
      (n.reduce a fresh).val = v ∧ (n.reduce a fresh).ref = fresh ∧
      (fresh ≠ n.ref → n.reduce a fresh ≠ n)) := by
  constructor
  · intro h
    cases a with
    | changeValue v => exact absurd rfl (h v)
    | wrapChild k ca => rfl
    | custom tag => rfl
  · rintro v rfl
    refine ⟨rfl, rfl, ?_⟩
    intro hf hcontra
    exact hf (congrArg RNode.ref hcontra)

/-- Witness for C3: a custom action a value node does not recognize returns
the node itself. -/
theorem c3_witness :
    RNode.reduce ⟨0, "x"⟩ (CoreAct.custom "t") 1 = ⟨0, "x"⟩ :=
  (c3_reduce_persistent_noop_pointer_equal ⟨0, "x"⟩ (CoreAct.custom "t") 1).1
    (fun _ h => CoreAct.noConfusion h)

/-- Claim C5: dispatching an action addressed to child `k` leaves every
sibling entry of the returned tree identical (identity-equal in the ref
model) to the original; likewise the src `LibraryQuery.reduce` on the custom
`queryLibraryUpdate` action spliced at the `inputs` child carries every
sibling child over unchanged. -/
theorem c5_structural_sharing_on_child_dispatch (m : MultiNode) (k j : String)
    (ca : CoreAct) (fresh : Nat) (m' : MultiNode)
    (hne : j ≠ k) (h : m.reduceChild k ca fresh = some m') :
    alookup m'.children j = alookup m.children j ∧
    (∀ (lq : LibraryQuery) (dsl : Option (List InputItem)),
      (lq.reduce (.queryLibraryUpdate dsl)).libraryQueryId = lq.libraryQueryId ∧
      (lq.reduce (.queryLibraryUpdate dsl)).libraryQueryRecordId = lq.libraryQueryRecordId ∧
      (lq.reduce (.queryLibraryUpdate dsl)).errorState = lq.errorState) := by
  constructor
  · unfold MultiNode.reduceChild at h
    split at h
    · injection h with h2
      subst h2
      exact alookup_map_update m.children k j (fun nd => nd.reduce ca (fresh + 1)) hne
    · cases h
  · intro lq dsl
    exact ⟨rfl, rfl, rfl⟩

/-- Witness for C5: routing a change-value action to child `x` leaves the
sibling `y` entry identical. -/
theorem c5_witness :
    alookup (MultiNode.children ⟨3, [("x", ⟨4, "z"⟩), ("y", ⟨2, "w"⟩)]⟩) "y"
      = alookup (MultiNode.children ⟨0, [("x", ⟨1, "u"⟩), ("y", ⟨2, "w"⟩)]⟩) "y" :=
  (c5_structural_sharing_on_child_dispatch ⟨0, [("x", ⟨1, "u"⟩), ("y", ⟨2, "w"⟩)]⟩
    "x" "y" (CoreAct.changeValue "z") 3 ⟨3, [("x", ⟨4, "z"⟩), ("y", ⟨2, "w"⟩)]⟩
    (by decide) (by decide)).1

/-- Claim C2 counterexample: an `InputsComp` constructed with a value carrying
an entry for `c`, narrowed to keys {a, b} by `setInputs` and with `a` edited
to `"42"`, has children keyed exactly {a, b}; recomputing the keys to {a, c}
preserves `a`'s edit and drops `b`, but initializes `c` from the stale
construction-time entry `"99"`, not from the schema default. -/
theorem c2_counterexample_stale_construction_value :
    (((InputsComp.construct [("a", "1"), ("b", "2"), ("c", "99")]).setInputs
        [⟨"a", ""⟩, ⟨"b", ""⟩]).editChild "a" "42").children.map Prod.fst = ["a", "b"] ∧
    alookup ((((InputsComp.construct [("a", "1"), ("b", "2"), ("c", "99")]).setInputs
        [⟨"a", ""⟩, ⟨"b", ""⟩]).editChild "a" "42").setInputs
        [⟨"a", ""⟩, ⟨"c", ""⟩]).children "a" = some "42" ∧
    alookup ((((InputsComp.construct [("a", "1"), ("b", "2"), ("c", "99")]).setInputs
        [⟨"a", ""⟩, ⟨"b", ""⟩]).editChild "a" "42").setInputs
        [⟨"a", ""⟩, ⟨"c", ""⟩]).children "b" = none ∧
    alookup ((((InputsComp.construct [("a", "1"), ("b", "2"), ("c", "99")]).setInputs
        [⟨"a", ""⟩, ⟨"b", ""⟩]).editChild "a" "42").setInputs
        [⟨"a", ""⟩, ⟨"c", ""⟩]).children "c" = some "99" ∧
    ("99" : String) ≠ jsonControlDefault := by
  decide

/-- Claim C2 (amended): recomputing the key set of an `InputsComp` with
children {a, b} to {a, c} preserves `a`'s live edited value, drops `b`
entirely, and constructs a fresh child for `c` initialized from its default —
provided the construction-time `params.value` carries no entry for `c`;
otherwise `c` is initialized from that stale original entry. -/
theorem c2_dynamic_map_reuse_amended (s : InputsComp) (a b c va vb da dc : String)
    (hch : s.children = [(a, va), (b, vb)])
    (hab : a ≠ b) (hca : c ≠ a) (hcb : c ≠ b)
    (hcp : alookup s.paramsValue c = none) :
    alookup (s.setInputs [⟨a, da⟩, ⟨c, dc⟩]).children a = some va ∧
    alookup (s.setInputs [⟨a, da⟩, ⟨c, dc⟩]).children b = none ∧
    alookup (s.setInputs [⟨a, da⟩, ⟨c, dc⟩]).children c = some jsonControlDefault ∧
    (s.setInputs [⟨a, da⟩, ⟨c, dc⟩]).children.map Prod.fst = [a, c] := by
  have h1 : firstDedup [a, c] = [a, c] := by
    simp [firstDedup, dedupAux, hca]
  have h2 : s.mergedLookup a = some va := by
    simp [InputsComp.mergedLookup, InputsComp.toJsonValue, hch, alookup, Option.orElse]
  have h3 : s.mergedLookup c = none := by
    simp [InputsComp.mergedLookup, InputsComp.toJsonValue, hch, alookup,
      Ne.symm hca, Ne.symm hcb, hcp, Option.orElse]
  have hsetup : (s.setInputs [⟨a, da⟩, ⟨c, dc⟩]).children
      = [(a, va), (c, jsonControlDefault)] := by
    simp [InputsComp.setInputs, h1, h2, h3]
  refine ⟨?_, ?_, ?_, ?_⟩ <;> rw [hsetup] <;>
    simp [alookup, hab, hcb, Ne.symm hca]

/-- Witness for the amended C2 at concrete keys and values. -/
theorem c2_amended_witness :
    alookup ((⟨[], [("a", "7"), ("b", "8")], []⟩ : InputsComp).setInputs
        [⟨"a", ""⟩, ⟨"c", ""⟩]).children "c" = some jsonControlDefault :=
  (c2_dynamic_map_reuse_amended ⟨[], [("a", "7"), ("b", "8")], []⟩
    "a" "b" "c" "7" "8" "" "" rfl (by decide) (by decide) (by decide) rfl).2.2.1

/-- Claim C4 counterexample: parsing `LibraryQuery` from a complete value V
and serializing after an inputs document arrives whose declared input names
differ from V's input keys does not reproduce V: the arrived name `c` is
materialized at its default and V's key `a` is dropped. -/
theorem c4_roundtrip_counterexample :
    LibraryQuery.toJsonValue
        ((LibraryQuery.construct ⟨"q", "latest", [("a", "1")]⟩).reduce
          (.queryLibraryUpdate (some [⟨"c", "d"⟩])))
      ≠ (⟨"q", "latest", [("a", "1")]⟩ : LQData) := by
  decide

/-- Claim C4 (amended): for every complete value V of the `LibraryQuery`
schema, parse-then-serialize reproduces V exactly before the asynchronous
inputs document has arrived (`isReady` false, transient error state
excluded); after the document has arrived (`isReady` true) it reproduces V
provided the document's declared input names coincide, in order, with the
keys of V's inputs — otherwise serialization follows the arrived names. -/
theorem c4_roundtrip_amended (V : LQData) (doc : List InputItem)
    (hnd : (V.inputs.map Prod.fst).Nodup)
    (hnames : doc.map InputItem.name = V.inputs.map Prod.fst) :
    LibraryQuery.toJsonValue (LibraryQuery.construct V) = V ∧
    LibraryQuery.toJsonValue
        ((LibraryQuery.construct V).reduce (.queryLibraryUpdate (some doc))) = V := by
  constructor
  · rfl
  · have hch : ((InputsComp.construct V.inputs).setInputs doc).children = V.inputs := by
      show (firstDedup (doc.map InputItem.name)).map
          (fun n => (n, ((InputsComp.construct V.inputs).mergedLookup n).getD
            jsonControlDefault)) = V.inputs
      rw [hnames, firstDedup_eq_self _ hnd,
        List.map_congr_left
          (g := fun n => (n, (alookup V.inputs n).getD jsonControlDefault))
          (fun n _ => by rw [mergedLookup_construct])]
      exact alookup_rebuild V.inputs jsonControlDefault hnd
    show (⟨V.libraryQueryId, V.libraryQueryRecordId,
        ((InputsComp.construct V.inputs).setInputs doc).children⟩ : LQData) = V
    rw [hch]

/-- Witness for the amended C4 at a concrete value and matching document. -/
theorem c4_amended_witness :
    LibraryQuery.toJsonValue
        ((LibraryQuery.construct ⟨"q", "latest", [("a", "1")]⟩).reduce
          (.queryLibraryUpdate (some [⟨"a", "d"⟩])))
      = (⟨"q", "latest", [("a", "1")]⟩ : LQData) :=
  (c4_roundtrip_amended ⟨"q", "latest", [("a", "1")]⟩ [⟨"a", "d"⟩]
    (by decide) (by decide)).2

/-- Claim C6: a reported fetch failure is captured into the dedicated error
child of the owning `LibraryQuery` via a change-value action, leaving every
other child and flag untouched; with no fetched document it renders as the
inline error message; and it blocks nothing: a later inputs document or a
child change action reduces exactly as before. -/
theorem c6_fetch_error_captured_inline (lq : LibraryQuery) (msg : String)
    (hmsg : msg ≠ "") (hq : lq.libraryQueryId ≠ "") :
    (lq.reduce (.errorChange msg)).errorState = msg ∧
    (lq.reduce (.errorChange msg)).libraryQueryId = lq.libraryQueryId ∧
    (lq.reduce (.errorChange msg)).libraryQueryRecordId = lq.libraryQueryRecordId ∧
    (lq.reduce (.errorChange msg)).inputs = lq.inputs ∧
    (lq.reduce (.errorChange msg)).isReady = lq.isReady ∧
    (lq.reduce (.errorChange msg)).getInputsView none = LQInputsView.errorText msg ∧
    (∀ dsl, ((lq.reduce (.errorChange msg)).reduce (.queryLibraryUpdate dsl)).isReady = true ∧
      ((lq.reduce (.errorChange msg)).reduce (.queryLibraryUpdate dsl)).inputs
        = lq.inputs.setInputs (dsl.getD [])) ∧
    (∀ v, ((lq.reduce (.errorChange msg)).reduce (.changeLibraryQueryId v)).libraryQueryId
        = v) := by
  refine ⟨rfl, rfl, rfl, rfl, rfl, ?_, fun dsl => ⟨rfl, rfl⟩, fun v => rfl⟩
  simp [LibraryQuery.reduce, LibraryQuery.getInputsView, hq, hmsg]

/-- Witness for C6 on a concrete constructed query and error message. -/
theorem c6_witness :
    ((LibraryQuery.construct ⟨"q", "latest", []⟩).reduce
        (.errorChange "boom")).errorState = "boom" :=
  (c6_fetch_error_captured_inline (LibraryQuery.construct ⟨"q", "latest", []⟩)
    "boom" (by decide) (by decide)).1

end Openblocks
